import Mathlib

/-!
Verification development for the `agentic_pipeline` framework
(`src/agentic_pipeline/core/{state,config,agent,pipeline}.py` and
`src/agentic_pipeline/composition/composite.py`).

The Python code is shallowly embedded: Python dicts become insertion-ordered
association lists, mutable objects become explicit state passing, raised
exceptions become `Except String`, and the unbounded `while True` pipeline
loop becomes a fuel-indexed recursion.  Wall-clock timestamps (`datetime`,
`updated_at`, timeout durations), logging, and `os` environment side effects
are not modelled; no theorem below depends on them.
-/

namespace AgenticPipeline

/-- Python values stored in state dictionaries (`Dict[str, Any]`). -/
inductive Value where
  | vNone
  | vBool (b : Bool)
  | vInt (n : Int)
  | vStr (s : String)
  | vList (xs : List Value)
  | vDict (xs : List (String × Value))
  deriving BEq, Repr

/-- A Python `Dict[str, Any]` as an insertion-ordered association list
without duplicate keys. -/
abbrev Dict := List (String × Value)

/-- Assigning `d[k] = v` on a Python dict: replace in place when the key is
present, append otherwise. -/
def dictSet (d : Dict) (k : String) (v : Value) : Dict :=
  if d.any (fun p => p.1 == k) then
    d.map (fun p => if p.1 == k then (k, v) else p)
  else
    d ++ [(k, v)]

/-- Python `d.update(e)`: fold `dictSet` over the entries of `e`. -/
def dictUpdate (d e : Dict) : Dict :=
  e.foldl (fun acc p => dictSet acc p.1 p.2) d

/-- Python `d.get(k)` returning `None` when absent. -/
def dictGet (d : Dict) (k : String) : Option Value :=
  (d.find? (fun p => p.1 == k)).map (fun p => p.2)

/-- Python `d.pop(k, None)`: the removed value (if any) and the remaining dict. -/
def dictPop (d : Dict) (k : String) : Option Value × Dict :=
  (dictGet d k, d.filter (fun p => p.1 != k))

/-- The `StateSnapshot` dataclass of `core/state.py` (`timestamp` omitted:
wall-clock time is outside the model). -/
structure StateSnapshot where
  iteration : Nat
  data : Dict
  message : String
  deriving Repr

/-- The mutable part of `core/state.py`'s `AgentState`: current data, the
iteration counter and the snapshot history (`_metadata` timestamps omitted). -/
structure AgentState where
  data : Dict
  iteration : Nat
  history : List StateSnapshot
  deriving Repr

/-- `AgentState.__init__(initial_data)`. -/
def mkAgentState (initial : Dict) : AgentState :=
  { data := initial, iteration := 0, history := [] }

namespace AgentState

/-- `AgentState.get(key)` (default `None`). -/
def get (s : AgentState) (key : String) : Option Value :=
  dictGet s.data key

/-- `AgentState.set(key, value)`. -/
def set (s : AgentState) (key : String) (value : Value) : AgentState :=
  { s with data := dictSet s.data key value }

/-- `AgentState.update(data)`. -/
def update (s : AgentState) (d : Dict) : AgentState :=
  { s with data := dictUpdate s.data d }

/-- `AgentState.remove(key)`: the popped value and the updated state. -/
def remove (s : AgentState) (key : String) : Option Value × AgentState :=
  let (v, d) := dictPop s.data key
  (v, { s with data := d })

/-- `AgentState.snapshot(message)`: append a copy of the current data to the
history at the current iteration number. -/
def snapshot (s : AgentState) (message : String) : AgentState :=
  { s with history := s.history ++ [{ iteration := s.iteration, data := s.data, message := message }] }

/-- `AgentState.advance_iteration(message)`: snapshot, then increment the
iteration counter. -/
def advance_iteration (s : AgentState) (message : String) : AgentState :=
  let s := s.snapshot message
  { s with iteration := s.iteration + 1 }

/-- `AgentState.rollback_to_iteration(iteration)`.  The argument is a Python
`int`, hence `Int` here; the returned `Bool` is the Python return value. -/
def rollback_to_iteration (s : AgentState) (iteration : Int) : Bool × AgentState :=
  if iteration < 0 ∨ (s.history.length : Int) ≤ iteration then
    (false, s)
  else
    match s.history.get? iteration.toNat with
    | none => (false, s)
    | some snap =>
        (true,
         { s with
             data := snap.data,
             iteration := iteration.toNat,
             history := s.history.take (iteration.toNat + 1) })

end AgentState

/-- One data-or-iteration operation on an `AgentState`, as allowed by claim
C1: `set`/`update`/`remove` mutations interleaved with `advance_iteration`
(`get` is read-only and needs no representation). -/
inductive StateOp where
  | set (key : String) (value : Value)
  | update (d : Dict)
  | remove (key : String)
  | advance (message : String)

/-- Apply one `StateOp`. -/
def applyOp (s : AgentState) : StateOp → AgentState
  | .set k v => s.set k v
  | .update d => s.update d
  | .remove k => (s.remove k).2
  | .advance m => s.advance_iteration m

/-- Apply a sequence of `StateOp`s in order. -/
def applyOps (s : AgentState) (ops : List StateOp) : AgentState :=
  ops.foldl applyOp s

/-- The `AgentStatus` enum of `core/agent.py`. -/
inductive AgentStatus where
  | initializing
  | running
  | completed
  | failed
  | paused
  deriving DecidableEq, Repr

/-- The string payload of each `AgentStatus` member (`.value` in Python). -/
def AgentStatus.str : AgentStatus → String
  | .initializing => "initializing"
  | .running => "running"
  | .completed => "completed"
  | .failed => "failed"
  | .paused => "paused"

/-- The `AgentResult` dataclass of `core/agent.py`. -/
structure AgentResult where
  status : AgentStatus
  message : String
  data : Dict
  terminal : Bool := false
  error : Option String := none
  deriving Repr

/-- The `TerminalConditionType` enum of `core/config.py`. -/
inductive TerminalConditionType where
  | max_iterations
  | success_status
  | error_status
  | custom_condition
  | timeout
  | state_condition
  deriving DecidableEq, Repr

/-- The `value: Any` field of a `TerminalCondition`: an integer bound for
`MAX_ITERATIONS`/`TIMEOUT`, a state predicate closure or a key/value dict for
`STATE_CONDITION`, a custom closure for `CUSTOM_CONDITION` (its Python
signature is `(state, agent, status)`; the model passes the state and the
pipeline's agent status). -/
inductive CondValue where
  | int (n : Int)
  | pred (f : AgentState → Bool)
  | kv (d : Dict)
  | custom (f : AgentState → AgentStatus → Bool)
  | none

/-- The `TerminalCondition` dataclass of `core/config.py`. -/
structure TerminalCondition where
  type : TerminalConditionType
  value : CondValue
  description : String := ""

/-- The `AgentConfig` dataclass of `core/config.py`.  Logging, timeout,
parameter, environment, hook-name and metadata fields are omitted: none of
them affects the modelled pipeline behaviour (`_setup_environment` performs
`os` side effects outside the model, and `timeout_seconds` only seeds an
optional TIMEOUT condition the claims never construct). -/
structure AgentConfig where
  name : String
  agent_type : String
  description : String := ""
  max_iterations : Int := 50
  terminal_conditions : List TerminalCondition := []

/-- `AgentConfig.__post_init__`: construct a config and, when the supplied
`terminal_conditions` list is empty, append the default MAX_ITERATIONS
condition built from `max_iterations`. -/
def mkAgentConfig (name agent_type : String) (max_iterations : Int)
    (terminal_conditions : List TerminalCondition) : AgentConfig :=
  let cfg : AgentConfig :=
    { name := name, agent_type := agent_type, max_iterations := max_iterations,
      terminal_conditions := terminal_conditions }
  if cfg.terminal_conditions.isEmpty then
    { cfg with
        terminal_conditions :=
          cfg.terminal_conditions ++
            [{ type := .max_iterations,
               value := .int max_iterations,
               description := "Stop after " ++ toString max_iterations ++ " iterations" }] }
  else
    cfg

/-- `AgentConfig.remove_terminal_condition(condition_type)`: drop every
condition of that type; the `Bool` reports whether anything was removed. -/
def AgentConfig.remove_terminal_condition (cfg : AgentConfig)
    (condition_type : TerminalConditionType) : Bool × AgentConfig :=
  let kept := cfg.terminal_conditions.filter (fun tc => tc.type ≠ condition_type)
  (kept.length < cfg.terminal_conditions.length, { cfg with terminal_conditions := kept })

/-- The behaviour of an `Agent` (`core/agent.py`) as a state machine over an
internal state type `σ` standing for the Python object's mutable attributes.
`Except.error e` models a raised exception with message `e`.  `execute`
returning `Option.none` models an iteration blocked forever inside an
external call.  `execute`, `preHook` and `postHook` receive and return the
`AgentState` because Python implementations may mutate it in place; `init`
and `onError` are modelled as leaving it unchanged (the framework's defaults
do not touch it). -/
structure AgentImpl (σ : Type u) where
  init : σ → Except String σ
  execute : σ → AgentState → Option (σ × AgentState × Except String AgentResult)
  preHook : σ → AgentState → Except String AgentState
  postHook : σ → AgentState → AgentResult → Except String AgentState
  onError : σ → String → AgentState → σ × AgentResult

/-- A pipeline-registered hook callback.  `_execute_hooks` passes the live
agent and state objects to every callback, so a hook may mutate both; it
may also raise, returning `some message`.  (The extra read-only arguments
some hook types receive — context, result, error, reason — are not
modelled; a hook is a function of the two mutable arguments.) -/
abbrev HookFn (σ : Type u) := σ → AgentState → σ × AgentState × Option String

/-- The six hook lists of `AgentPipeline.hooks`. -/
structure PipelineHooks (σ : Type u) where
  pre_pipeline : List (HookFn σ) := []
  post_pipeline : List (HookFn σ) := []
  pre_iteration : List (HookFn σ) := []
  post_iteration : List (HookFn σ) := []
  on_error : List (HookFn σ) := []
  on_terminal : List (HookFn σ) := []

/-- `AgentPipeline._execute_hooks`: run every callback in order on the live
agent and state, catch each raised exception and collect the logged
warnings; mutations persist across callbacks, raised exceptions are never
propagated. -/
def executeHooks : List (HookFn σ) → σ → AgentState → σ × AgentState × List String
  | [], a, s => (a, s, [])
  | h :: rest, a, s =>
    match h a s with
    | (a2, s2, err) =>
      let r := executeHooks rest a2 s2
      (r.1, r.2.1, (match err with | some e => [e] | Option.none => []) ++ r.2.2)

/-- A hook that leaves the agent and the state unchanged (it may still
raise): the only behaviour expressible through the framework's own hook
surface without reaching into the passed objects. -/
def observerHook (h : HookFn σ) : Prop :=
  ∀ a s, (h a s).1 = a ∧ (h a s).2.1 = s

/-- All six registered hook lists consist of observer hooks. -/
def observerHooks (hooks : PipelineHooks σ) : Prop :=
  (∀ h ∈ hooks.pre_pipeline, observerHook h) ∧
  (∀ h ∈ hooks.post_pipeline, observerHook h) ∧
  (∀ h ∈ hooks.pre_iteration, observerHook h) ∧
  (∀ h ∈ hooks.post_iteration, observerHook h) ∧
  (∀ h ∈ hooks.on_error, observerHook h) ∧
  (∀ h ∈ hooks.on_terminal, observerHook h)

/-- Two hook callbacks with the same mutation effect on the agent and the
state; they may differ arbitrarily in whether and what they raise. -/
def sameEffect (h1 h2 : HookFn σ) : Prop :=
  ∀ a s, (h1 a s).1 = (h2 a s).1 ∧ (h1 a s).2.1 = (h2 a s).2.1

/-- Pointwise `sameEffect` between two hook lists. -/
def sameEffects (l1 l2 : List (HookFn σ)) : Prop :=
  List.Forall₂ sameEffect l1 l2

/-- `sameEffects` between all six hook lists of two registrations. -/
def sameHookEffects (hooks1 hooks2 : PipelineHooks σ) : Prop :=
  sameEffects hooks1.pre_pipeline hooks2.pre_pipeline ∧
  sameEffects hooks1.post_pipeline hooks2.post_pipeline ∧
  sameEffects hooks1.pre_iteration hooks2.pre_iteration ∧
  sameEffects hooks1.post_iteration hooks2.post_iteration ∧
  sameEffects hooks1.on_error hooks2.on_error ∧
  sameEffects hooks1.on_terminal hooks2.on_terminal

/-- `AgentPipeline._evaluate_single_condition`.  `agent_status` is the
pipeline's `self.status.agent_status`.  TIMEOUT conditions compare wall-clock
duration, which is outside the model, so they evaluate to `false`; raised
predicate errors are caught in the source (condition treated as not met), so
predicates are modelled as total `Bool` functions. -/
def evalSingleCondition (cond : TerminalCondition) (state : AgentState)
    (agent_status : AgentStatus) : Bool :=
  match cond.type with
  | .max_iterations =>
      match cond.value with
      | .int n => (state.iteration : Int) ≥ n
      | _ => false
  | .success_status => decide (agent_status = .completed)
  | .error_status => decide (agent_status = .failed)
  | .timeout => false
  | .state_condition =>
      match cond.value with
      | .pred f => f state
      | .kv d => d.any (fun p => ((state.get p.1).getD Value.vNone) == p.2)
      | _ => false
  | .custom_condition =>
      match cond.value with
      | .custom f => f state agent_status
      | _ => false

/-- `AgentPipeline._evaluate_terminal_conditions`: OR over the config's
condition list. -/
def evalTerminalConditions (cfg : AgentConfig) (state : AgentState)
    (agent_status : AgentStatus) : Bool :=
  cfg.terminal_conditions.any (fun c => evalSingleCondition c state agent_status)

/-- The state threaded through `AgentPipeline.run`'s `while True` loop:
the agent's internal state, the `AgentState`, `status.agent_status`,
`status.errors`, and `agent.iteration_count`.  `execCalls` and `condEvals`
are ghost instrumentation counting calls to `execute_iteration` and rounds
of `_evaluate_terminal_conditions`; they exist only to state claims. -/
structure LoopSt (σ : Type u) where
  sigma : σ
  state : AgentState
  status : AgentStatus
  errors : List String
  iterCount : Nat
  execCalls : Nat
  condEvals : Nat

/-- How the loop ended: `broke` is a `break` (run proceeds to finalize),
`raised` is an exception escaping to the pipeline-level handler. -/
inductive LoopExit (σ : Type u) where
  | broke (st : LoopSt σ)
  | raised (st : LoopSt σ) (e : String)

/-- The `if result.error:` check of `pipeline.py` lines 230-231: a
non-`None`, non-empty (truthy) error string is appended to `status.errors`. -/
def errLog (r : AgentResult) : List String :=
  match r.error with
  | some e => if e = "" then [] else [e]
  | none => []

/-- The `if result.data: state.update(result.data)` merge of lines 237-238:
a non-empty (truthy) result data dict is merged into the state. -/
def mergeData (s : AgentState) (r : AgentResult) : AgentState :=
  if r.data.isEmpty then s else s.update r.data

/-- The `while True` loop of `AgentPipeline.run` (`core/pipeline.py` lines
211-267), one fuel unit per loop entry.  `Sum.inl` returns the loop state
when the fuel runs out or an iteration blocks forever (the Python loop is
still running). -/
def runLoop (impl : AgentImpl σ) (cfg : AgentConfig) (hooks : PipelineHooks σ) :
    Nat → LoopSt σ → LoopSt σ ⊕ LoopExit σ
  | 0, st => .inl st
  | fuel + 1, st =>
    let st := { st with condEvals := st.condEvals + 1 }
    if evalTerminalConditions cfg st.state st.status then
      let hr := executeHooks hooks.on_terminal st.sigma st.state
      .inr (.broke { st with sigma := hr.1, state := hr.2.1 })
    else
      let hr := executeHooks hooks.pre_iteration st.sigma st.state
      let st := { st with sigma := hr.1, state := hr.2.1 }
      match impl.preHook st.sigma st.state with
      | .error e => .inr (.raised st e)
      | .ok state1 =>
        let st := { st with state := state1 }
        match impl.execute st.sigma st.state with
        | none => .inl st
        | some (sig2, state2, out) =>
          let st := { st with sigma := sig2, state := state2, execCalls := st.execCalls + 1 }
          match out with
          | .error e =>
            let (sig3, er) := impl.onError st.sigma e st.state
            let hr2 := executeHooks hooks.on_error sig3 st.state
            let st := { st with sigma := hr2.1, state := hr2.2.1 }
            if er.terminal then
              .inr (.broke { st with status := er.status, errors := st.errors ++ [e] })
            else
              runLoop impl cfg hooks fuel st
          | .ok r =>
            let st := { st with iterCount := st.iterCount + 1 }
            let st := { st with errors := st.errors ++ errLog r }
            let st := { st with state := mergeData st.state r }
            let st := { st with state := st.state.advance_iteration r.message }
            match impl.postHook st.sigma st.state r with
            | .error e =>
              let (sig3, er) := impl.onError st.sigma e st.state
              let hr2 := executeHooks hooks.on_error sig3 st.state
              let st := { st with sigma := hr2.1, state := hr2.2.1 }
              if er.terminal then
                .inr (.broke { st with status := er.status, errors := st.errors ++ [e] })
              else
                runLoop impl cfg hooks fuel st
            | .ok state3 =>
              let st := { st with state := state3 }
              let hr3 := executeHooks hooks.post_iteration st.sigma st.state
              let st := { st with sigma := hr3.1, state := hr3.2.1 }
              if r.terminal then
                let hr4 := executeHooks hooks.on_terminal st.sigma st.state
                .inr (.broke { st with sigma := hr4.1, state := hr4.2.1, status := r.status })
              else
                let st := { st with condEvals := st.condEvals + 1 }
                if evalTerminalConditions cfg st.state st.status then
                  let hr4 := executeHooks hooks.on_terminal st.sigma st.state
                  .inr (.broke { st with sigma := hr4.1, state := hr4.2.1 })
                else
                  runLoop impl cfg hooks fuel st

/-- The observable outcome of `AgentPipeline.run`: the fields of the
returned result dict that the claims and the composite agent inspect
(`pipeline_status.final_status`, `total_iterations`, `errors`,
`final_state`, `pipeline_error`), plus the ghost counters carried over from
the loop state.  `agent_results` (the agent's `finalize` dict) is not
modelled; `finalize` is treated as non-raising. -/
structure RunBundle where
  final_status : AgentStatus
  total_iterations : Nat
  errors : List String
  finalState : AgentState
  pipeline_error : Option String
  execCalls : Nat
  condEvals : Nat

/-- The loop state at the top of the main loop: fresh `AgentState`, agent
status RUNNING (set after successful initialization), empty error list,
zeroed counters. -/
def initLoopSt (s1 : σ) : LoopSt σ :=
  { sigma := s1, state := mkAgentState [], status := .running, errors := [],
    iterCount := 0, execCalls := 0, condEvals := 0 }

/-- `AgentPipeline.run` (`core/pipeline.py` lines 180-319): fresh state,
hooks, initialize, the loop, then either the normal result assembly (lines
269-295, upgrading a still-RUNNING status to COMPLETED and recording
`total_iterations = state.iteration`) or the pipeline-level exception
handler (lines 297-319, status FAILED, `total_iterations` left at 0).
The run also returns the final loop state so the agent's internal state is
observable; `Option.none` means the loop was still running after `fuel`
entries.  (In the init-failure branch the on_error hooks receive the
pre-`initialize` agent state: a raising `initialize`'s partial mutations
are not representable in the `Except` model.) -/
def run (impl : AgentImpl σ) (cfg : AgentConfig) (hooks : PipelineHooks σ)
    (s0 : σ) (fuel : Nat) : Option (LoopSt σ × RunBundle) :=
  let hr0 := executeHooks hooks.pre_pipeline s0 (mkAgentState [])
  match impl.init hr0.1 with
  | .error e =>
      let hrE := executeHooks hooks.on_error hr0.1 hr0.2.1
      some ({ sigma := hrE.1, state := hrE.2.1, status := .failed, errors := [e],
              iterCount := 0, execCalls := 0, condEvals := 0 },
            { final_status := .failed, total_iterations := 0, errors := [e],
              finalState := hrE.2.1, pipeline_error := some e, execCalls := 0, condEvals := 0 })
  | .ok s1 =>
      match runLoop impl cfg hooks fuel { initLoopSt s1 with state := hr0.2.1 } with
      | .inl _ => none
      | .inr (.broke st) =>
          let final := if st.status = .running then AgentStatus.completed else st.status
          let hr2 := executeHooks hooks.post_pipeline st.sigma st.state
          some ({ st with sigma := hr2.1, state := hr2.2.1 },
                { final_status := final, total_iterations := st.state.iteration,
                  errors := st.errors, finalState := hr2.2.1, pipeline_error := none,
                  execCalls := st.execCalls, condEvals := st.condEvals })
      | .inr (.raised st e) =>
          let hr2 := executeHooks hooks.on_error st.sigma st.state
          some ({ st with
                    sigma := hr2.1, state := hr2.2.1,
                    status := .failed, errors := st.errors ++ [e] },
                { final_status := .failed, total_iterations := 0, errors := st.errors ++ [e],
                  finalState := hr2.2.1, pipeline_error := some e,
                  execCalls := st.execCalls, condEvals := st.condEvals })

/-- A pipeline with no registered hooks (`AgentPipeline.__init__`'s empty
hook lists; also what nested composite pipelines get). -/
def noHooks : PipelineHooks σ := {}

/-- An agent object as a step holds it: behaviour, config, and the current
internal state, the internal state type packed existentially. -/
structure PackedAgent where
  State : Type
  impl : AgentImpl State
  config : AgentConfig
  st : State

/-- The `AgentStep` class of `composition/composite.py`; `step_id` is the
agent's name at construction time. -/
structure Step where
  agent : PackedAgent
  condition : Option (AgentState → Bool)
  on_success : Option String
  on_failure : Option String
  max_iterations : Option Int
  step_id : String

/-- `AgentStep.__init__` / `CompositeAgent.add_step`. -/
def mkStep (agent : PackedAgent) (condition : Option (AgentState → Bool))
    (max_iterations : Option Int) : Step :=
  { agent := agent, condition := condition, on_success := none, on_failure := none,
    max_iterations := max_iterations, step_id := agent.config.name }

/-- The `WorkflowMode` enum. -/
inductive WorkflowMode where
  | sequential
  | parallel
  | conditional
  | loop
  deriving DecidableEq, Repr

/-- The mutable bookkeeping of a `CompositeAgent`: its steps (mutated in
place as sub-agents run), cursor, completed/failed step ids, stored step
results, and the agent's own `self.status`. -/
structure CompositeBook where
  steps : List Step
  current_step_index : Nat
  completed_steps : List String
  failed_steps : List String
  step_results : Dict
  status : AgentStatus

/-- `CompositeAgent.__init__`'s bookkeeping fields. -/
def mkCompositeBook (steps : List Step) : CompositeBook :=
  { steps := steps, current_step_index := 0, completed_steps := [],
    failed_steps := [], step_results := [], status := .initializing }

/-- Encoding of a nested pipeline run's result dict as a `Value`, as stored
in `step_results` and in result data (`agent_results` is not modelled and
encoded as `None`). -/
def bundleToValue (b : RunBundle) : Value :=
  .vDict [("agent_results", .vNone),
          ("pipeline_status",
            .vDict [("final_status", .vStr b.final_status.str),
                    ("total_iterations", .vInt (b.total_iterations : Int)),
                    ("errors", .vList (b.errors.map .vStr))]),
          ("final_state",
            .vDict [("data", .vDict b.finalState.data),
                    ("iteration", .vInt (b.finalState.iteration : Int))])]

/-- The `if step.max_iterations:` override of `_execute_sequential` /
`_execute_single_step`: a truthy override (non-`None`, non-zero) is written
into the step agent's `config.max_iterations`; nothing else in the config —
in particular `terminal_conditions` — is touched. -/
def applyStepOverride (step : Step) : AgentConfig :=
  match step.max_iterations with
  | some v => if v ≠ 0 then { step.agent.config with max_iterations := v } else step.agent.config
  | none => step.agent.config

/-- `CompositeAgent._execute_single_step` (used by the conditional and loop
modes): run the step's agent through a fresh hook-less nested pipeline,
record the result, and mark the step completed (merging
`{name}_result` into the parent state) or failed.  `Option.none` propagates
a nested run that did not finish within its fuel. -/
def execSingleStep (nestedFuel : Nat) (book : CompositeBook) (idx : Nat)
    (state : AgentState) : Option (CompositeBook × AgentState × AgentResult) :=
  match book.steps.get? idx with
  | none => none
  | some step =>
    let cfg := applyStepOverride step
    let pa := { step.agent with config := cfg }
    match run pa.impl cfg noHooks pa.st nestedFuel with
    | none => none
    | some (stF, results) =>
      let pa := { pa with st := stF.sigma }
      let book := { book with
        steps := book.steps.set idx { step with agent := pa },
        step_results := dictSet book.step_results cfg.name (bundleToValue results) }
      if results.final_status = .completed then
        let book := { book with completed_steps := book.completed_steps ++ [cfg.name] }
        let state := state.update [(cfg.name ++ "_result", .vDict results.finalState.data)]
        some (book, state,
          { status := .running, message := "Step " ++ cfg.name ++ " completed",
            data := [("step_result", bundleToValue results)], terminal := false, error := none })
      else
        let book := { book with failed_steps := book.failed_steps ++ [cfg.name] }
        some (book, state,
          { status := .failed, message := "Step " ++ cfg.name ++ " failed",
            data := [("failed_step", .vStr cfg.name), ("step_result", bundleToValue results)],
            terminal := true, error := none })

/-- `CompositeAgent._execute_sequential`. -/
def execSequential (nestedFuel : Nat) (book : CompositeBook)
    (state : AgentState) : Option (CompositeBook × AgentState × AgentResult) :=
  if book.steps.length ≤ book.current_step_index then
    some ({ book with status := .completed }, state,
      { status := .completed, message := "All workflow steps completed successfully",
        data := [("completed_steps", .vList (book.completed_steps.map .vStr))],
        terminal := true, error := none })
  else
    match book.steps.get? book.current_step_index with
    | none => none
    | some step =>
      let cfg := applyStepOverride step
      let pa := { step.agent with config := cfg }
      match run pa.impl cfg noHooks pa.st nestedFuel with
      | none => none
      | some (stF, results) =>
        let pa := { pa with st := stF.sigma }
        let book := { book with
          steps := book.steps.set book.current_step_index { step with agent := pa },
          step_results := dictSet book.step_results cfg.name (bundleToValue results) }
        if results.final_status = .completed then
          let book := { book with
            completed_steps := book.completed_steps ++ [cfg.name],
            current_step_index := book.current_step_index + 1 }
          let state := state.update [(cfg.name ++ "_result", .vDict results.finalState.data)]
          if book.steps.length ≤ book.current_step_index then
            some ({ book with status := .completed }, state,
              { status := .completed, message := "All workflow steps completed",
                data := [("step_results", .vDict book.step_results)],
                terminal := true, error := none })
          else
            some (book, state,
              { status := .running,
                message := "Step " ++ cfg.name ++ " completed successfully",
                data := [("current_step", .vInt (book.current_step_index : Int)),
                         ("step_result", bundleToValue results)],
                terminal := false, error := none })
        else
          let book := { book with failed_steps := book.failed_steps ++ [cfg.name] }
          some (book, state,
            { status := .failed, message := "Step " ++ cfg.name ++ " failed",
              data := [("failed_step", .vStr cfg.name), ("step_result", bundleToValue results)],
              terminal := true, error := some ("Step " ++ cfg.name ++ " failed") })

/-- Whether the conditional scan takes a step: its id is not in
`completed_steps` (the `continue` of line 222 — note `failed_steps` is NOT
consulted) and its guard is absent or evaluates to true (line 226). -/
def stepEligible (completed : List String) (state : AgentState) (step : Step) : Bool :=
  !completed.contains step.step_id &&
    (match step.condition with | none => true | some f => f state)

/-- The step-selection scan of `CompositeAgent._execute_conditional` (lines
221-228): walk the steps in order and take the first eligible one. -/
def conditionalScan (completed : List String) (state : AgentState) :
    List Step → Option Nat
  | [] => none
  | step :: rest =>
    if stepEligible completed state step then
      some 0
    else
      (conditionalScan completed state rest).map (· + 1)

/-- `CompositeAgent._execute_conditional`. -/
def execConditional (nestedFuel : Nat) (book : CompositeBook)
    (state : AgentState) : Option (CompositeBook × AgentState × AgentResult) :=
  match conditionalScan book.completed_steps state book.steps with
  | none =>
      some ({ book with status := .completed }, state,
        { status := .completed, message := "Conditional workflow completed",
          data := [("completed_steps", .vList (book.completed_steps.map .vStr))],
          terminal := true, error := none })
  | some idx => execSingleStep nestedFuel book idx state

/-- `CompositeAgent._execute_loop`. -/
def execLoop (nestedFuel : Nat) (book : CompositeBook)
    (state : AgentState) : Option (CompositeBook × AgentState × AgentResult) :=
  if book.steps.isEmpty then
    some (book, state,
      { status := .completed, message := "No steps to execute in loop",
        data := [], terminal := true, error := none })
  else
    match execSingleStep nestedFuel book (book.current_step_index % book.steps.length) state with
    | none => none
    | some (book2, state2, r) =>
        some ({ book2 with current_step_index := (book.current_step_index + 1) % book.steps.length },
              state2, r)

/-- `CompositeAgent.initialize`'s per-step sub-agent initialization: a
raised error propagates; successes update the step agents in place. -/
def stepsInit : List Step → Except String (List Step)
  | [] => .ok []
  | step :: rest =>
    match step.agent.impl.init step.agent.st with
    | .error e => .error e
    | .ok s2 => (stepsInit rest).map (fun r => { step with agent := { step.agent with st := s2 } } :: r)

/-- The base `Agent.on_error` implementation of `core/agent.py`: mark the
agent failed and return a terminal failed result carrying the error. -/
def defaultOnErrorResult (name e : String) : AgentResult :=
  { status := .failed, message := "Agent " ++ name ++ " encountered an error",
    data := [], terminal := true, error := some e }

/-- The `CompositeAgent` as an `AgentImpl` over its bookkeeping:
`initialize` initializes every sub-agent then marks the composite running;
`execute_iteration` dispatches on the workflow mode (PARALLEL raises
`NotImplementedError`); the iteration hooks are the base class no-ops; and
`on_error` is the base `Agent.on_error`. -/
def compositeImpl (name : String) (mode : WorkflowMode) (nestedFuel : Nat) :
    AgentImpl CompositeBook :=
  { init := fun book =>
      match stepsInit book.steps with
      | .error e => .error e
      | .ok steps => .ok { book with steps := steps, status := .running },
    execute := fun book state =>
      match mode with
      | .sequential => (execSequential nestedFuel book state).map (fun p => (p.1, p.2.1, .ok p.2.2))
      | .conditional => (execConditional nestedFuel book state).map (fun p => (p.1, p.2.1, .ok p.2.2))
      | .loop => (execLoop nestedFuel book state).map (fun p => (p.1, p.2.1, .ok p.2.2))
      | .parallel => some (book, state, .error "Workflow mode WorkflowMode.PARALLEL not implemented"),
    preHook := fun _ s => .ok s,
    postHook := fun _ s _ => .ok s,
    onError := fun book e _ => ({ book with status := .failed }, defaultOnErrorResult name e) }

/-! ## Derived loop states and concrete sample agents -/

/-- State with one snapshot taken, used to refute the rollback invariant. -/
def rollbackSample : AgentState :=
  (mkAgentState [("x", .vInt 1)]).advance_iteration "first"

/-- Concrete two-snapshot state for the C2 witness. -/
def rollbackSample2 : AgentState :=
  ((mkAgentState []).advance_iteration "a").set "k" (.vInt 7) |>.advance_iteration "b"

/-- Configuration constructed with a single TIMEOUT condition and no
removal performed. -/
def timeoutOnlyConfig : AgentConfig :=
  mkAgentConfig "worker" "generic" 50 [{ type := .timeout, value := .int 10 }]

/-- Loop state after one successfully handled iteration that returned `r`
(internal state `a2`, possibly mutated `AgentState` `state2`): data merged,
iteration advanced, error logged, counters bumped. -/
def afterOkSt (st : LoopSt σ) (a2 : σ) (state2 : AgentState) (r : AgentResult) : LoopSt σ :=
  { st with
      sigma := a2,
      state := (mergeData state2 r).advance_iteration r.message,
      errors := st.errors ++ errLog r,
      iterCount := st.iterCount + 1,
      execCalls := st.execCalls + 1,
      condEvals := st.condEvals + 1 }

/-- Loop state after an iteration that raised: the agent's internal state is
whatever `on_error` returned (`a3`), the `AgentState` is what `execute` left
behind (`state2`), the execute-call counter is bumped, and the iteration
counter was NOT advanced. -/
def afterErrSt (st : LoopSt σ) (a3 : σ) (state2 : AgentState) : LoopSt σ :=
  { st with
      sigma := a3,
      state := state2,
      execCalls := st.execCalls + 1,
      condEvals := st.condEvals + 1 }

/-- Result with `terminal=True` and status COMPLETED. -/
def terminalOkResult : AgentResult :=
  { status := .completed, message := "done", data := [], terminal := true, error := none }

/-- Agent that completes terminally on its first iteration, with the base
class's no-op hooks and default `on_error`. -/
def simpleTerminalAgent : AgentImpl Unit :=
  { init := fun s => .ok s,
    execute := fun _ s => some ((), s, .ok terminalOkResult),
    preHook := fun _ s => .ok s,
    postHook := fun _ s _ => .ok s,
    onError := fun _ e _ => ((), defaultOnErrorResult "worker" e) }

/-- The same agent with an overridden `pre_iteration_hook` that raises. -/
def hookRaisingAgent : AgentImpl Unit :=
  { simpleTerminalAgent with preHook := fun _ _ => .error "hook boom" }

/-- A default-conditions config with `max_iterations = 5`. -/
def cfgFive : AgentConfig := mkAgentConfig "worker" "generic" 5 []

/-- Packaged trivially-completing agent used to build concrete steps. -/
def packedUnit (name : String) (mi : Int) : PackedAgent :=
  { State := Unit, impl := simpleTerminalAgent,
    config := mkAgentConfig name "t" mi [], st := () }

/-- Agent whose every iteration raises and whose `on_error` answers with a
non-terminal recovery Result. -/
def retryOnErrorAgent : AgentImpl Unit :=
  { init := fun s => .ok s,
    execute := fun _ s => some ((), s, .error "boom"),
    preHook := fun _ s => .ok s,
    postHook := fun _ s _ => .ok s,
    onError := fun _ _ _ =>
      ((), { status := .running, message := "recovering", data := [],
             terminal := false, error := none }) }

/-- The same raising agent with the base class's default `on_error`
(terminal failed Result). -/
def fatalOnErrorAgent : AgentImpl Unit :=
  { retryOnErrorAgent with onError := fun _ e _ => ((), defaultOnErrorResult "worker" e) }

/-- Execute-call counter of a loop outcome. -/
def loopExecCalls : LoopSt σ ⊕ LoopExit σ → Nat
  | .inl st => st.execCalls
  | .inr (.broke st) => st.execCalls
  | .inr (.raised st _) => st.execCalls

/-- Agent returning a terminal Result whose status is RUNNING. -/
def runningTerminalAgent : AgentImpl Unit :=
  { simpleTerminalAgent with
      execute := fun _ s =>
        some ((), s, .ok { status := .running, message := "odd", data := [],
                           terminal := true, error := none }) }

/-- A config whose default MAX_ITERATIONS condition captured the value 0. -/
def zeroCfg : AgentConfig := mkAgentConfig "worker" "generic" 0 []

/-- Agent that never terminates on its own: every iteration returns a
non-terminal running Result carrying some data. -/
def countingAgent : AgentImpl Unit :=
  { simpleTerminalAgent with
      execute := fun _ s =>
        some ((), s, .ok { status := .running, message := "tick",
                           data := [("count", .vInt 1)], terminal := false,
                           error := none }) }

/-- Guard-less step wrapping a trivially-completing agent named "A". -/
def stepA9 : Step := mkStep (packedUnit "A" 1) none none

/-- Guard-less step wrapping a trivially-completing agent named "B". -/
def stepB9 : Step := mkStep (packedUnit "B" 1) none none

/-- Conditional composite bookkeeping in which step "A" has already
failed (e.g. during a previous run of the same composite object). -/
def bookC9 : CompositeBook :=
  { mkCompositeBook [stepA9, stepB9] with failed_steps := ["A"] }

/-- Agent whose first iteration returns a terminal FAILED Result. -/
def failingAgentImpl : AgentImpl Unit :=
  { simpleTerminalAgent with
      execute := fun _ s =>
        some ((), s, .ok { status := .failed, message := "nope", data := [],
                           terminal := true, error := some "nope" }) }

/-- Packaged failing agent used as a concrete failing composite step. -/
def packedFailing (name : String) : PackedAgent :=
  { State := Unit, impl := failingAgentImpl,
    config := mkAgentConfig name "t" 1 [], st := () }

/-- A single registered pre-iteration hook that mutates nothing and raises. -/
def raisingObserverHooks : PipelineHooks Unit :=
  { pre_iteration := [fun a s => (a, s, some "observer boom")] }

/-- The same registered hook with the raise removed. -/
def quietObserverHooks : PipelineHooks Unit :=
  { pre_iteration := [fun a s => (a, s, Option.none)] }

/-! ## Lemmas about `AgentState` -/

@[simp]
theorem AgentState.update_iteration (s : AgentState) (d : Dict) :
    (s.update d).iteration = s.iteration := rfl

@[simp]
theorem AgentState.update_history (s : AgentState) (d : Dict) :
    (s.update d).history = s.history := rfl

@[simp]
theorem AgentState.advance_iteration_iteration (s : AgentState) (m : String) :
    (s.advance_iteration m).iteration = s.iteration + 1 := rfl

@[simp]
theorem AgentState.advance_iteration_history (s : AgentState) (m : String) :
    (s.advance_iteration m).history =
      s.history ++ [{ iteration := s.iteration, data := s.data, message := m }] := rfl

@[simp]
theorem AgentState.update_data (s : AgentState) (d : Dict) :
    (s.update d).data = dictUpdate s.data d := rfl

@[simp]
theorem AgentState.advance_iteration_data (s : AgentState) (m : String) :
    (s.advance_iteration m).data = s.data := rfl

/-- Data mutations and `advance_iteration` each preserve the relation
`iteration = history.length`. -/
theorem applyOp_preserves_inv (s : AgentState) (op : StateOp)
    (h : s.iteration = s.history.length) :
    (applyOp s op).iteration = (applyOp s op).history.length := by
  cases op <;>
    simp [applyOp, AgentState.set, AgentState.update, AgentState.remove,
      AgentState.advance_iteration, AgentState.snapshot, dictPop, h]

/-- The relation `iteration = history.length` is preserved by any sequence
of operations. -/
theorem applyOps_preserves_inv (ops : List StateOp) (s : AgentState)
    (h : s.iteration = s.history.length) :
    (applyOps s ops).iteration = (applyOps s ops).history.length := by
  induction ops generalizing s with
  | nil => simpa [applyOps] using h
  | cons op rest ih =>
      have h2 := applyOp_preserves_inv s op h
      simpa [applyOps, List.foldl_cons] using ih (applyOp s op) h2

/-- C1: for every freshly created AgentState and every finite sequence of
`advance_iteration` calls interleaved with `set`/`update`/`remove` data
mutations (no direct `snapshot` or `rollback_to_iteration` calls), after
each `advance_iteration` call — indeed after every prefix of the sequence —
`state.iteration == len(state.history)`. -/
theorem c1_advance_iteration_invariant (initial : Dict) (ops : List StateOp) :
    (applyOps (mkAgentState initial) ops).iteration =
      (applyOps (mkAgentState initial) ops).history.length :=
  applyOps_preserves_inv ops (mkAgentState initial) rfl

/-- C2 (amended): for valid `0 <= i < len(history)`, `rollback_to_iteration(i)`
returns true, sets the data to exactly `history[i].data`, resets the
iteration counter to `i`, and truncates the history to the first `i+1`
snapshots — so afterwards `iteration == len(history) - 1`, not
`iteration == len(history)`; for out-of-range `i` it returns false and
leaves the state unchanged. -/
theorem c2_rollback_to_iteration (s : AgentState) (i : Int) :
    (∀ snap, 0 ≤ i → i < (s.history.length : Int) →
      s.history.get? i.toNat = some snap →
      s.rollback_to_iteration i =
        (true, { s with data := snap.data, iteration := i.toNat,
                        history := s.history.take (i.toNat + 1) }) ∧
      (s.rollback_to_iteration i).2.iteration + 1 =
        (s.rollback_to_iteration i).2.history.length) ∧
    ((i < 0 ∨ (s.history.length : Int) ≤ i) →
      s.rollback_to_iteration i = (false, s)) := by
  constructor
  · intro snap h0 hlt hget
    have hnot : ¬ (i < 0 ∨ (s.history.length : Int) ≤ i) := by omega
    have hget2 : s.history[i.toNat]? = some snap := by
      simpa [List.get?_eq_getElem?] using hget
    have heq : s.rollback_to_iteration i =
        (true, { s with data := snap.data, iteration := i.toNat,
                        history := s.history.take (i.toNat + 1) }) := by
      simp [AgentState.rollback_to_iteration, hnot, hget2]
    refine ⟨heq, ?_⟩
    rw [heq]
    have htake : (s.history.take (i.toNat + 1)).length = i.toNat + 1 := by
      rw [List.length_take]
      omega
    simp [htake]
  · intro h
    simp [AgentState.rollback_to_iteration, h]

/-- C2 counterexample: a valid rollback does not restore the invariant
`iteration == len(history)` — after `advance_iteration` then
`rollback_to_iteration(0)` the call returns true but the counter is 0 while
the history holds 1 snapshot. -/
theorem c2_rollback_invariant_counterexample :
    (rollbackSample.rollback_to_iteration 0).1 = true ∧
    ¬ ((rollbackSample.rollback_to_iteration 0).2.iteration =
        (rollbackSample.rollback_to_iteration 0).2.history.length) := by
  constructor
  · rfl
  · decide

/-- Witness for `c2_rollback_to_iteration` at the two-snapshot state: both
the valid branch (at `i = 1`) and the invalid branch (at `i = 5`). -/
theorem c2_rollback_to_iteration_witness :
    (rollbackSample2.rollback_to_iteration 1 =
      (true, { rollbackSample2 with
                 data := [("k", .vInt 7)], iteration := 1,
                 history := rollbackSample2.history.take 2 }) ∧
      (rollbackSample2.rollback_to_iteration 1).2.iteration + 1 =
        (rollbackSample2.rollback_to_iteration 1).2.history.length) ∧
    rollbackSample2.rollback_to_iteration 5 = (false, rollbackSample2) := by
  constructor
  · have h := (c2_rollback_to_iteration rollbackSample2 1).1
      { iteration := 1, data := [("k", .vInt 7)], message := "b" }
      (by decide) (by decide) (by rfl)
    exact h
  · exact (c2_rollback_to_iteration rollbackSample2 5).2 (by decide)

/-! ## Claims about `AgentConfig` -/

/-- C7 (amended): `__post_init__` appends the default MAX_ITERATIONS
condition only when the configuration is constructed with an empty
`terminal_conditions` list; a configuration constructed with a non-empty
list keeps exactly that list, so it contains a MAX_ITERATIONS condition only
if the supplied list does. -/
theorem c7_default_max_iterations_condition (name agent_type : String)
    (mi : Int) (tcs : List TerminalCondition) :
    (mkAgentConfig name agent_type mi tcs).terminal_conditions =
      (if tcs.isEmpty then
        [{ type := .max_iterations, value := .int mi,
           description := "Stop after " ++ toString mi ++ " iterations" }]
      else tcs) := by
  cases tcs <;> simp [mkAgentConfig]

/-- C7 counterexample: a config constructed with a non-empty
`terminal_conditions` list (one TIMEOUT condition) and never touched by
`remove_terminal_condition` contains no MAX_ITERATIONS condition at all. -/
theorem c7_counterexample :
    timeoutOnlyConfig.terminal_conditions.length = 1 ∧
    (timeoutOnlyConfig.terminal_conditions.all
      (fun c => decide (c.type ≠ TerminalConditionType.max_iterations))) = true :=
  ⟨rfl, rfl⟩

/-! ## Lemmas about hook execution -/

/-- Running a list of observer hooks leaves the agent unchanged. -/
theorem executeHooks_observer_sigma (l : List (HookFn σ))
    (hl : ∀ h ∈ l, observerHook h) (a : σ) (s : AgentState) :
    (executeHooks l a s).1 = a := by
  induction l generalizing a s with
  | nil => rfl
  | cons h rest ih =>
    have hh := hl h (List.mem_cons_self h rest) a s
    simp only [executeHooks]
    rw [hh.1, hh.2]
    exact ih (fun g hg => hl g (List.mem_cons_of_mem h hg)) a s

/-- Running a list of observer hooks leaves the state unchanged. -/
theorem executeHooks_observer_state (l : List (HookFn σ))
    (hl : ∀ h ∈ l, observerHook h) (a : σ) (s : AgentState) :
    (executeHooks l a s).2.1 = s := by
  induction l generalizing a s with
  | nil => rfl
  | cons h rest ih =>
    have hh := hl h (List.mem_cons_self h rest) a s
    simp only [executeHooks]
    rw [hh.1, hh.2]
    exact ih (fun g hg => hl g (List.mem_cons_of_mem h hg)) a s

/-- The empty hook registration is (vacuously) an observer registration. -/
theorem noHooks_observer : observerHooks (noHooks : PipelineHooks σ) := by
  refine ⟨?_, ?_, ?_, ?_, ?_, ?_⟩ <;> intro h hh <;> simp [noHooks] at hh

/-- Hook lists with pointwise equal mutation effects drive the agent and the
state identically — the raised exceptions influence only the warning log. -/
theorem executeHooks_effects_congr (l1 l2 : List (HookFn σ))
    (h : sameEffects l1 l2) (a : σ) (s : AgentState) :
    (executeHooks l1 a s).1 = (executeHooks l2 a s).1 ∧
    (executeHooks l1 a s).2.1 = (executeHooks l2 a s).2.1 := by
  induction h generalizing a s with
  | nil => exact ⟨rfl, rfl⟩
  | cons hh ht ih =>
    obtain ⟨e1, e2⟩ := hh a s
    simp only [executeHooks]
    rw [e1, e2]
    exact ih _ _

/-- Condition evaluation reads only the config's `terminal_conditions`. -/
theorem evalTerminalConditions_congr (cfg1 cfg2 : AgentConfig)
    (h : cfg1.terminal_conditions = cfg2.terminal_conditions) :
    evalTerminalConditions cfg1 = evalTerminalConditions cfg2 := by
  funext s a
  simp [evalTerminalConditions, h]

/-- The loop reads the config only through `_evaluate_terminal_conditions`,
hence only through `terminal_conditions`; in particular it never reads
`max_iterations`. -/
theorem runLoop_config_congr (impl : AgentImpl σ) (hooks : PipelineHooks σ)
    (cfg1 cfg2 : AgentConfig)
    (h : cfg1.terminal_conditions = cfg2.terminal_conditions)
    (fuel : Nat) (st : LoopSt σ) :
    runLoop impl cfg1 hooks fuel st = runLoop impl cfg2 hooks fuel st := by
  have he := evalTerminalConditions_congr cfg1 cfg2 h
  induction fuel generalizing st with
  | zero => rfl
  | succ f ih =>
    simp only [runLoop, he]
    repeat' first
      | rfl
      | exact ih _
      | split

/-- `AgentPipeline.run` is unaffected by replacing the config with one that
has the same `terminal_conditions`. -/
theorem run_config_congr (impl : AgentImpl σ) (hooks : PipelineHooks σ)
    (cfg1 cfg2 : AgentConfig)
    (h : cfg1.terminal_conditions = cfg2.terminal_conditions)
    (s0 : σ) (fuel : Nat) :
    run impl cfg1 hooks s0 fuel = run impl cfg2 hooks s0 fuel := by
  simp only [run]
  split
  · rfl
  · rw [runLoop_config_congr impl hooks cfg1 cfg2 h]

/-! ## Single loop-entry lemmas -/

/-- One loop entry for an agent with the default (no-op, non-raising)
iteration hooks whose `execute_iteration` returns a result `r` without
raising: the result is processed, then the loop breaks on `r.terminal`,
breaks on a matched post-iteration condition, or continues. -/
theorem runLoop_entry_ok (impl : AgentImpl σ) (cfg : AgentConfig)
    (hooks : PipelineHooks σ) (fuel : Nat) (st : LoopSt σ)
    (a2 : σ) (state2 : AgentState) (r : AgentResult)
    (hobs : observerHooks hooks)
    (hpre : ∀ a s, impl.preHook a s = .ok s)
    (hpost : ∀ a s q, impl.postHook a s q = .ok s)
    (hc : evalTerminalConditions cfg st.state st.status = false)
    (hex : impl.execute st.sigma st.state = some (a2, state2, .ok r)) :
    runLoop impl cfg hooks (fuel + 1) st =
      (if r.terminal then
        Sum.inr (.broke { afterOkSt st a2 state2 r with status := r.status })
       else
        let A2 := { afterOkSt st a2 state2 r with condEvals := st.condEvals + 1 + 1 };
        if evalTerminalConditions cfg A2.state A2.status then Sum.inr (.broke A2)
        else runLoop impl cfg hooks fuel A2) := by
  have hpi1 := executeHooks_observer_sigma hooks.pre_iteration hobs.2.2.1
  have hpi2 := executeHooks_observer_state hooks.pre_iteration hobs.2.2.1
  have hpo1 := executeHooks_observer_sigma hooks.post_iteration hobs.2.2.2.1
  have hpo2 := executeHooks_observer_state hooks.post_iteration hobs.2.2.2.1
  have hot1 := executeHooks_observer_sigma hooks.on_terminal hobs.2.2.2.2.2
  have hot2 := executeHooks_observer_state hooks.on_terminal hobs.2.2.2.2.2
  simp [runLoop, afterOkSt, hpre, hex, hpost, hc, hpi1, hpi2, hpo1, hpo2, hot1, hot2]

/-- One loop entry for an agent whose `execute_iteration` raises `e` and
whose `on_error` returns `(a3, er)`: the loop breaks with `er.status` when
`er.terminal`, and otherwise continues with the next entry. -/
theorem runLoop_entry_raise (impl : AgentImpl σ) (cfg : AgentConfig)
    (hooks : PipelineHooks σ) (fuel : Nat) (st : LoopSt σ)
    (a2 a3 : σ) (state2 : AgentState) (e : String) (er : AgentResult)
    (hobs : observerHooks hooks)
    (hpre : ∀ a s, impl.preHook a s = .ok s)
    (hc : evalTerminalConditions cfg st.state st.status = false)
    (hex : impl.execute st.sigma st.state = some (a2, state2, .error e))
    (herr : impl.onError a2 e state2 = (a3, er)) :
    runLoop impl cfg hooks (fuel + 1) st =
      (if er.terminal then
        Sum.inr (.broke { afterErrSt st a3 state2 with
                            status := er.status, errors := st.errors ++ [e] })
       else runLoop impl cfg hooks fuel (afterErrSt st a3 state2)) := by
  have hpi1 := executeHooks_observer_sigma hooks.pre_iteration hobs.2.2.1
  have hpi2 := executeHooks_observer_state hooks.pre_iteration hobs.2.2.1
  have her1 := executeHooks_observer_sigma hooks.on_error hobs.2.2.2.2.1
  have her2 := executeHooks_observer_state hooks.on_error hobs.2.2.2.2.1
  simp [runLoop, afterErrSt, hpre, hex, herr, hc, hpi1, hpi2, her1, her2]

/-! ## Concrete agents used by counterexamples and witnesses -/

/-! ## C6: hook exception handling -/

/-- The loop is driven only by the mutation effects of the registered
hooks: replacing every registered callback by one with the same effect on
the agent and the state — but arbitrarily different raising behaviour —
leaves the loop's outcome unchanged, because `_execute_hooks` catches every
raised exception and only logs it. -/
theorem runLoop_hook_effects_congr (impl : AgentImpl σ) (cfg : AgentConfig)
    (h1 h2 : PipelineHooks σ) (h : sameHookEffects h1 h2)
    (fuel : Nat) (st : LoopSt σ) :
    runLoop impl cfg h1 fuel st = runLoop impl cfg h2 fuel st := by
  obtain ⟨hp1, hp2, hp3, hp4, hp5, hp6⟩ := h
  have e3s := fun a s => (executeHooks_effects_congr _ _ hp3 a s).1
  have e3t := fun a s => (executeHooks_effects_congr _ _ hp3 a s).2
  have e4s := fun a s => (executeHooks_effects_congr _ _ hp4 a s).1
  have e4t := fun a s => (executeHooks_effects_congr _ _ hp4 a s).2
  have e5s := fun a s => (executeHooks_effects_congr _ _ hp5 a s).1
  have e5t := fun a s => (executeHooks_effects_congr _ _ hp5 a s).2
  have e6s := fun a s => (executeHooks_effects_congr _ _ hp6 a s).1
  have e6t := fun a s => (executeHooks_effects_congr _ _ hp6 a s).2
  induction fuel generalizing st with
  | zero => rfl
  | succ f ih =>
    simp only [runLoop, e3s, e3t, e4s, e4t, e5s, e5t, e6s, e6t]
    repeat' first
      | rfl
      | exact ih _
      | split

/-- C6 (amended): an exception raised by a pipeline-registered hook
callback of any type is caught and logged by `_execute_hooks` and never
propagated: it alters nothing beyond the mutations the callback itself
performed on the agent and the state — two hook registrations whose
callbacks have pointwise identical mutation effects, but differ arbitrarily
in whether and what they raise, produce identical runs.  (This protection
does not extend to the Agent's own `pre_iteration_hook` /
`post_iteration_hook`, see the counterexample.) -/
theorem c6_hook_exceptions_never_alter_run (impl : AgentImpl σ)
    (cfg : AgentConfig) (h1 h2 : PipelineHooks σ) (h : sameHookEffects h1 h2)
    (s0 : σ) (fuel : Nat) :
    run impl cfg h1 s0 fuel = run impl cfg h2 s0 fuel := by
  obtain ⟨hp1, hp2, hp3, hp4, hp5, hp6⟩ := h
  have e1s := fun a s => (executeHooks_effects_congr _ _ hp1 a s).1
  have e1t := fun a s => (executeHooks_effects_congr _ _ hp1 a s).2
  have e2s := fun a s => (executeHooks_effects_congr _ _ hp2 a s).1
  have e2t := fun a s => (executeHooks_effects_congr _ _ hp2 a s).2
  have e5s := fun a s => (executeHooks_effects_congr _ _ hp5 a s).1
  have e5t := fun a s => (executeHooks_effects_congr _ _ hp5 a s).2
  have hl := runLoop_hook_effects_congr impl cfg h1 h2
    ⟨hp1, hp2, hp3, hp4, hp5, hp6⟩ fuel
  simp only [run, e1s, e1t, e2s, e2t, e5s, e5t, hl]

/-- Witness for `c6_hook_exceptions_never_alter_run`: a registered
pre-iteration observer hook that raises versus one that does not — the runs
are equal. -/
theorem c6_hook_exceptions_witness :
    run simpleTerminalAgent cfgFive raisingObserverHooks () 3 =
      run simpleTerminalAgent cfgFive quietObserverHooks () 3 :=
  c6_hook_exceptions_never_alter_run simpleTerminalAgent cfgFive
    raisingObserverHooks quietObserverHooks
    ⟨.nil, .nil, .cons (fun a s => ⟨rfl, rfl⟩) .nil, .nil, .nil, .nil⟩ () 3

/-- C6 counterexample: an exception raised by the Agent's own
`pre_iteration_hook` is called outside the iteration try block
(`pipeline.py` line 222), propagates to the pipeline-level handler, and
flips the run's final status from completed to failed with a recorded
`pipeline_error` — so it is not true that every hook callback's exception
is caught without altering the run. -/
theorem c6_counterexample :
    (run hookRaisingAgent cfgFive noHooks () 3).map (fun p => p.2.final_status) =
      some .failed ∧
    (run hookRaisingAgent cfgFive noHooks () 3).map (fun p => p.2.pipeline_error) =
      some (some "hook boom") ∧
    (run simpleTerminalAgent cfgFive noHooks () 3).map (fun p => p.2.final_status) =
      some .completed :=
  ⟨rfl, rfl, rfl⟩

/-! ## C10: per-step max-iterations override -/

/-- C10: a truthy per-step override is assigned to the step agent's
`config.max_iterations` but the `terminal_conditions` list — including the
MAX_ITERATIONS condition value captured at construction — is untouched; a
MAX_ITERATIONS condition is evaluated from its own captured `value`; and
the nested pipeline run is identical under the overridden and the original
config, so the enforced bound is the originally captured value, not the
override. -/
theorem c10_override_does_not_change_bound (pa : PackedAgent)
    (guard : Option (AgentState → Bool)) (v : Int) (hv : v ≠ 0) :
    (applyStepOverride (mkStep pa guard (some v))).max_iterations = v ∧
    (applyStepOverride (mkStep pa guard (some v))).terminal_conditions =
      pa.config.terminal_conditions ∧
    (∀ n d s a, evalSingleCondition
        { type := .max_iterations, value := .int n, description := d } s a =
      decide ((s.iteration : Int) ≥ n)) ∧
    (∀ hooks s0 fuel, run pa.impl (applyStepOverride (mkStep pa guard (some v))) hooks s0 fuel =
      run pa.impl pa.config hooks s0 fuel) := by
  have hcfg : applyStepOverride (mkStep pa guard (some v)) =
      { pa.config with max_iterations := v } := by
    simp [applyStepOverride, mkStep, hv]
  refine ⟨by rw [hcfg], by rw [hcfg], ?_, ?_⟩
  · intro n d s a
    rfl
  · intro hooks s0 fuel
    exact run_config_congr pa.impl hooks _ pa.config (by rw [hcfg]) s0 fuel

/-- Witness for `c10_override_does_not_change_bound`: a concrete agent
whose config captured `max_iterations = 2`, overridden to 7. -/
theorem c10_override_witness :
    (applyStepOverride (mkStep (packedUnit "A" 2) none (some 7))).max_iterations = 7 ∧
    (applyStepOverride (mkStep (packedUnit "A" 2) none (some 7))).terminal_conditions =
      (packedUnit "A" 2).config.terminal_conditions ∧
    run (packedUnit "A" 2).impl
        (applyStepOverride (mkStep (packedUnit "A" 2) none (some 7))) noHooks () 4 =
      run (packedUnit "A" 2).impl (packedUnit "A" 2).config noHooks () 4 := by
  have h := c10_override_does_not_change_bound (packedUnit "A" 2) none 7 (by decide)
  exact ⟨h.1, h.2.1, h.2.2.2 noHooks () 4⟩

/-! ## C5: error handling in the iteration loop -/

/-- C5 (amended): when `execute_iteration` raises `e`, the Pipeline invokes
`agent.on_error(e, state)`; if the returned Result has `terminal=True` the
loop stops with that Result's status and the error recorded in the errors
list; if it is non-terminal the loop is NOT stopped — it proceeds to a
further loop entry (without advancing the iteration counter). -/
theorem c5_on_error_terminal_or_continue (impl : AgentImpl σ) (cfg : AgentConfig)
    (hooks : PipelineHooks σ) (fuel : Nat) (st : LoopSt σ)
    (a2 a3 : σ) (state2 : AgentState) (e : String) (er : AgentResult)
    (hobs : observerHooks hooks)
    (hpre : ∀ a s, impl.preHook a s = .ok s)
    (hc : evalTerminalConditions cfg st.state st.status = false)
    (hex : impl.execute st.sigma st.state = some (a2, state2, .error e))
    (herr : impl.onError a2 e state2 = (a3, er)) :
    (er.terminal = true →
      runLoop impl cfg hooks (fuel + 1) st =
        Sum.inr (.broke { afterErrSt st a3 state2 with
                            status := er.status, errors := st.errors ++ [e] })) ∧
    (er.terminal = false →
      runLoop impl cfg hooks (fuel + 1) st =
        runLoop impl cfg hooks fuel (afterErrSt st a3 state2)) := by
  rw [runLoop_entry_raise impl cfg hooks fuel st a2 a3 state2 e er hobs hpre hc hex herr]
  constructor
  · intro h
    simp [h]
  · intro h
    simp [h]

/-- C5 counterexample: with an always-raising agent whose `on_error` returns
a non-terminal Result and a MAX_ITERATIONS(5) condition, the run does not
stop — after 4 loop entries `execute_iteration` has been called 4 times
(the loop kept continuing after each non-terminal `on_error`), and the run
has not terminated. -/
theorem c5_counterexample :
    loopExecCalls (runLoop retryOnErrorAgent cfgFive noHooks 4 (initLoopSt ())) = 4 ∧
    run retryOnErrorAgent cfgFive noHooks () 4 = none :=
  ⟨rfl, rfl⟩

/-- Witness for `c5_on_error_terminal_or_continue`: both branches at a
concrete first loop entry (fatal default `on_error`, and the non-terminal
recovering `on_error`). -/
theorem c5_on_error_witness :
    runLoop fatalOnErrorAgent cfgFive noHooks 3 (initLoopSt ()) =
      Sum.inr (.broke { afterErrSt (initLoopSt ()) () (mkAgentState []) with
                          status := AgentStatus.failed,
                          errors := ([] : List String) ++ ["boom"] }) ∧
    runLoop retryOnErrorAgent cfgFive noHooks 3 (initLoopSt ()) =
      runLoop retryOnErrorAgent cfgFive noHooks 2 (afterErrSt (initLoopSt ()) () (mkAgentState [])) := by
  constructor
  · exact (c5_on_error_terminal_or_continue fatalOnErrorAgent cfgFive noHooks 2
      (initLoopSt ()) () () (mkAgentState []) "boom"
      (defaultOnErrorResult "worker" "boom")
      noHooks_observer (fun a s => rfl) rfl rfl rfl).1 rfl
  · exact (c5_on_error_terminal_or_continue retryOnErrorAgent cfgFive noHooks 2
      (initLoopSt ()) () () (mkAgentState []) "boom"
      { status := .running, message := "recovering", data := [],
        terminal := false, error := none }
      noHooks_observer (fun a s => rfl) rfl rfl rfl).2 rfl

/-! ## C4: a terminal first Result -/

/-- C4 (amended): when the first `execute_iteration` call returns a Result
with `terminal=True` and the configured max-iterations value is at least 1
(a default-constructed condition list), the run stops after exactly one
iteration regardless of the configured `max_iterations` value, no condition
round is evaluated after the terminal Result (only the single pre-iteration
round ran), and the recorded final status is the Result's status — except
that a terminal Result whose status is RUNNING is recorded as COMPLETED by
the post-loop upgrade. -/
theorem c4_terminal_result_stops_run (impl : AgentImpl σ) (hooks : PipelineHooks σ)
    (s0 s1 a2 : σ) (state2 : AgentState) (r : AgentResult)
    (name agent_type : String) (M : Int) (fuel : Nat)
    (hM : 1 ≤ M)
    (hobs : observerHooks hooks)
    (hinit : impl.init s0 = .ok s1)
    (hpre : ∀ a s, impl.preHook a s = .ok s)
    (hpost : ∀ a s q, impl.postHook a s q = .ok s)
    (hex : impl.execute s1 (mkAgentState []) = some (a2, state2, .ok r))
    (hterm : r.terminal = true) :
    ∃ stF b, run impl (mkAgentConfig name agent_type M []) hooks s0 (fuel + 1) =
        some (stF, b) ∧
      b.execCalls = 1 ∧
      b.condEvals = 1 ∧
      b.final_status = (if r.status = .running then AgentStatus.completed else r.status) := by
  have hc : evalTerminalConditions (mkAgentConfig name agent_type M [])
      (initLoopSt s1).state (initLoopSt s1).status = false := by
    simp [evalTerminalConditions, evalSingleCondition, mkAgentConfig,
      initLoopSt, mkAgentState]
    omega
  have hex2 : impl.execute (initLoopSt s1).sigma (initLoopSt s1).state =
      some (a2, state2, .ok r) := hex
  have hstep := runLoop_entry_ok impl (mkAgentConfig name agent_type M []) hooks
    fuel (initLoopSt s1) a2 state2 r hobs hpre hpost hc hex2
  rw [hterm] at hstep
  simp only [if_true] at hstep
  have hpp1 := executeHooks_observer_sigma hooks.pre_pipeline hobs.1
  have hpp2 := executeHooks_observer_state hooks.pre_pipeline hobs.1
  have hinitSt : ({ initLoopSt s1 with state := mkAgentState [] } : LoopSt σ) =
      initLoopSt s1 := rfl
  simp only [run, hpp1, hpp2, hinit, hinitSt, hstep]
  exact ⟨_, _, rfl, rfl, rfl, rfl⟩

/-- C4 counterexample: (1) a terminal Result whose status is RUNNING is
recorded as final status COMPLETED, not the Result's own status; (2) with
`max_iterations = 0` the pre-iteration condition check fires first, so the
run stops after zero iterations, not one. -/
theorem c4_counterexample :
    (run runningTerminalAgent cfgFive noHooks () 3).map (fun p => p.2.final_status) =
      some .completed ∧
    AgentStatus.completed ≠ AgentStatus.running ∧
    (run simpleTerminalAgent zeroCfg noHooks () 3).map (fun p => p.2.execCalls) =
      some 0 :=
  ⟨rfl, by decide, rfl⟩

/-- Witness for `c4_terminal_result_stops_run` at the concrete
terminally-completing agent with `max_iterations = 5`. -/
theorem c4_terminal_result_witness :
    ∃ stF b, run simpleTerminalAgent cfgFive noHooks () 3 = some (stF, b) ∧
      b.execCalls = 1 ∧
      b.condEvals = 1 ∧
      b.final_status =
        (if terminalOkResult.status = .running then AgentStatus.completed
         else terminalOkResult.status) :=
  c4_terminal_result_stops_run simpleTerminalAgent noHooks () () ()
    (mkAgentState []) terminalOkResult "worker" "generic" 5 2
    (by decide) noHooks_observer rfl (fun a s => rfl) (fun a s q => rfl) rfl rfl

/-! ## C3: the max-iterations bound -/

@[simp]
theorem mergeData_iteration (s : AgentState) (r : AgentResult) :
    (mergeData s r).iteration = s.iteration := by
  unfold mergeData
  split <;> simp

/-- With a single MAX_ITERATIONS condition, condition evaluation is exactly
the comparison `state.iteration >= n` from `_evaluate_single_condition`. -/
theorem evalTC_max (cfg : AgentConfig) (n : Int) (desc : String)
    (hcond : cfg.terminal_conditions =
      [{ type := .max_iterations, value := .int n, description := desc }])
    (s : AgentState) (a : AgentStatus) :
    evalTerminalConditions cfg s a = decide ((s.iteration : Int) ≥ n) := by
  simp [evalTerminalConditions, hcond, evalSingleCondition]

/-- Main loop induction: under a single MAX_ITERATIONS(N) condition, an
agent with default hooks whose every iteration returns a non-terminal
Result (mutating the state only through the returned data) drives the loop
from iteration `N - j` to a break at iteration `N`, calling
`execute_iteration` exactly `j` more times. -/
theorem runLoop_max_iterations (impl : AgentImpl σ) (cfg : AgentConfig)
    (hooks : PipelineHooks σ) (N : Nat) (desc : String)
    (hcond : cfg.terminal_conditions =
      [{ type := .max_iterations, value := .int (N : Int), description := desc }])
    (hobs : observerHooks hooks)
    (hpre : ∀ a s, impl.preHook a s = .ok s)
    (hpost : ∀ a s q, impl.postHook a s q = .ok s)
    (hexec : ∀ a s, ∃ a2 r, impl.execute a s = some (a2, s, .ok r) ∧ r.terminal = false) :
    ∀ j st fuel, st.state.iteration + j = N → 1 ≤ j → j ≤ fuel →
      st.status = AgentStatus.running →
      ∃ st2, runLoop impl cfg hooks fuel st = Sum.inr (.broke st2) ∧
        st2.state.iteration = N ∧
        st2.execCalls = st.execCalls + j ∧
        st2.status = AgentStatus.running := by
  intro j
  induction j with
  | zero => intro st fuel h1 h2 h3 h4; omega
  | succ j0 ih =>
    intro st fuel hiter hge hfuel hstat
    obtain ⟨f, rfl⟩ : ∃ f, fuel = f + 1 := ⟨fuel - 1, by omega⟩
    obtain ⟨a2, r, hex, hterm⟩ := hexec st.sigma st.state
    have hc : evalTerminalConditions cfg st.state st.status = false := by
      rw [evalTC_max cfg (N : Int) desc hcond]
      simp
      omega
    have hstep := runLoop_entry_ok impl cfg hooks f st a2 st.state r hobs hpre hpost hc hex
    rw [hterm] at hstep
    simp only [if_false, Bool.false_eq_true] at hstep
    cases j0 with
    | zero =>
      have hcpost : evalTerminalConditions cfg
          ({ afterOkSt st a2 st.state r with condEvals := st.condEvals + 1 + 1 }).state
          ({ afterOkSt st a2 st.state r with condEvals := st.condEvals + 1 + 1 }).status = true := by
        rw [evalTC_max cfg (N : Int) desc hcond]
        simp [afterOkSt]
        omega
      rw [hstep]
      simp only [hcpost, if_true]
      refine ⟨_, rfl, ?_, ?_, ?_⟩
      · simp [afterOkSt]
        try omega
      · simp [afterOkSt]
        try omega
      · simp [afterOkSt, hstat]
    | succ j1 =>
      have hcpost : evalTerminalConditions cfg
          ({ afterOkSt st a2 st.state r with condEvals := st.condEvals + 1 + 1 }).state
          ({ afterOkSt st a2 st.state r with condEvals := st.condEvals + 1 + 1 }).status = false := by
        rw [evalTC_max cfg (N : Int) desc hcond]
        simp [afterOkSt]
        omega
      rw [hstep]
      simp only [hcpost, Bool.false_eq_true, if_false]
      have hrec := ih { afterOkSt st a2 st.state r with condEvals := st.condEvals + 1 + 1 } f
        (by simp [afterOkSt]; omega) (by omega) (by omega) (by simp [afterOkSt, hstat])
      obtain ⟨st2, heq, hit2, hca2, hst2⟩ := hrec
      refine ⟨st2, heq, hit2, ?_, hst2⟩
      rw [hca2]
      simp [afterOkSt]
      try omega

/-- C3: with a default-constructed config of `max_iterations = N >= 1`
(hence a single MAX_ITERATIONS(N) condition) and an agent whose every
`execute_iteration` returns a non-terminal, non-raising Result (side
effects only through the returned data) with default non-raising hooks,
`run` calls `execute_iteration` exactly N times, the final state's
iteration counter is N, and the result bundle's final status is COMPLETED —
in particular not RUNNING. -/
theorem c3_max_iterations_bound (impl : AgentImpl σ) (hooks : PipelineHooks σ)
    (s0 s1 : σ) (name agent_type : String) (N fuel : Nat)
    (hN : 1 ≤ N) (hfuel : N ≤ fuel)
    (hobs : observerHooks hooks)
    (hinit : impl.init s0 = .ok s1)
    (hpre : ∀ a s, impl.preHook a s = .ok s)
    (hpost : ∀ a s q, impl.postHook a s q = .ok s)
    (hexec : ∀ a s, ∃ a2 r, impl.execute a s = some (a2, s, .ok r) ∧ r.terminal = false) :
    ∃ stF b, run impl (mkAgentConfig name agent_type (N : Int) []) hooks s0 fuel =
        some (stF, b) ∧
      b.execCalls = N ∧
      b.finalState.iteration = N ∧
      b.total_iterations = N ∧
      b.final_status = AgentStatus.completed ∧
      b.final_status ≠ AgentStatus.running := by
  have hcond : (mkAgentConfig name agent_type (N : Int) []).terminal_conditions =
      [{ type := .max_iterations, value := .int (N : Int),
         description := "Stop after " ++ toString (N : Int) ++ " iterations" }] := by
    simp [mkAgentConfig]
  have hloop := runLoop_max_iterations impl (mkAgentConfig name agent_type (N : Int) [])
    hooks N _ hcond hobs hpre hpost hexec N (initLoopSt s1) fuel
    (by simp [initLoopSt, mkAgentState]) hN hfuel rfl
  obtain ⟨st2, heq, hit, hca, hst⟩ := hloop
  have hpp1 := executeHooks_observer_sigma hooks.pre_pipeline hobs.1
  have hpp2 := executeHooks_observer_state hooks.pre_pipeline hobs.1
  have hqp1 := executeHooks_observer_sigma hooks.post_pipeline hobs.2.1
  have hqp2 := executeHooks_observer_state hooks.post_pipeline hobs.2.1
  have hinitSt : ({ initLoopSt s1 with state := mkAgentState [] } : LoopSt σ) =
      initLoopSt s1 := rfl
  simp only [run, hpp1, hpp2, hqp1, hqp2, hinit, hinitSt, heq]
  refine ⟨_, _, rfl, ?_, ?_, ?_, ?_, ?_⟩
  · simpa [initLoopSt] using hca
  · exact hit
  · exact hit
  · simp [hst]
  · simp [hst]

/-- Witness for `c3_max_iterations_bound`: the concrete never-terminating
counting agent with `N = 2` and fuel 3. -/
theorem c3_max_iterations_witness :
    ∃ stF b, run countingAgent (mkAgentConfig "worker" "generic" ((2 : Nat) : Int) [])
        noHooks () 3 = some (stF, b) ∧
      b.execCalls = 2 ∧
      b.finalState.iteration = 2 ∧
      b.total_iterations = 2 ∧
      b.final_status = AgentStatus.completed ∧
      b.final_status ≠ AgentStatus.running :=
  c3_max_iterations_bound countingAgent noHooks () () "worker" "generic" 2 3
    (by decide) (by decide) noHooks_observer rfl (fun a s => rfl) (fun a s q => rfl)
    (fun a s => ⟨(), _, rfl, rfl⟩)

/-! ## C9: conditional step selection -/

/-- A successful scan returns the index of an eligible step all of whose
predecessors are ineligible. -/
theorem conditionalScan_some_spec (completed : List String) (state : AgentState) :
    ∀ steps i, conditionalScan completed state steps = some i →
      (∃ step, steps.get? i = some step ∧ stepEligible completed state step = true) ∧
      (∀ j stepj, j < i → steps.get? j = some stepj →
        stepEligible completed state stepj = false) := by
  intro steps
  induction steps with
  | nil => intro i h; simp [conditionalScan] at h
  | cons s rest ih =>
    intro i h
    by_cases he : stepEligible completed state s = true
    · simp [conditionalScan, he] at h
      subst h
      exact ⟨⟨s, rfl, he⟩, fun j stepj hj => by omega⟩
    · simp [conditionalScan, he] at h
      obtain ⟨i0, h0, rfl⟩ := h
      obtain ⟨⟨step, hget, helig⟩, hbefore⟩ := ih i0 h0
      refine ⟨⟨step, by simpa using hget, helig⟩, ?_⟩
      intro j stepj hj hgetj
      cases j with
      | zero =>
        simp at hgetj
        subst hgetj
        simpa using he
      | succ j0 =>
        exact hbefore j0 stepj (by omega) (by simpa using hgetj)

/-- A failed scan means no step is eligible. -/
theorem conditionalScan_none_spec (completed : List String) (state : AgentState) :
    ∀ steps, conditionalScan completed state steps = none →
      ∀ step ∈ steps, stepEligible completed state step = false := by
  intro steps
  induction steps with
  | nil => intro h step hmem; simp at hmem
  | cons s rest ih =>
    intro h step hmem
    by_cases he : stepEligible completed state s = true
    · simp [conditionalScan, he] at h
    · simp [conditionalScan, he] at h
      rcases List.mem_cons.1 hmem with rfl | hmem2
      · simpa using he
      · exact ih h step hmem2

/-- C9 (amended): the conditional composite scans its steps in list order,
skipping every step already completed — steps that previously FAILED are
not skipped by the scan — and selects the first remaining step whose guard
is absent or true; if no step qualifies the composite returns a terminal
completed Result, otherwise it executes exactly the selected step; in
particular, with steps `[A(guard=false), B(guard=true)]` and nothing
completed, the first composite iteration selects B, skipping A. -/
theorem c9_conditional_selection :
    (∀ completed state steps i, conditionalScan completed state steps = some i →
      (∃ step, steps.get? i = some step ∧ stepEligible completed state step = true) ∧
      (∀ j stepj, j < i → steps.get? j = some stepj →
        stepEligible completed state stepj = false)) ∧
    (∀ completed state steps, conditionalScan completed state steps = none →
      ∀ step ∈ steps, stepEligible completed state step = false) ∧
    (∀ nf book state, conditionalScan book.completed_steps state book.steps = none →
      execConditional nf book state =
        some ({ book with status := .completed }, state,
          { status := .completed, message := "Conditional workflow completed",
            data := [("completed_steps", .vList (book.completed_steps.map .vStr))],
            terminal := true, error := none })) ∧
    (∀ nf book state i, conditionalScan book.completed_steps state book.steps = some i →
      execConditional nf book state = execSingleStep nf book i state) ∧
    (∀ pa pb state, conditionalScan [] state
        [mkStep pa (some (fun _ => false)) none, mkStep pb (some (fun _ => true)) none] =
      some 1) := by
  refine ⟨conditionalScan_some_spec, conditionalScan_none_spec, ?_, ?_, ?_⟩
  · intro nf book state h
    simp [execConditional, h]
  · intro nf book state i h
    simp [execConditional, h]
  · intro pa pb state
    simp [conditionalScan, stepEligible, mkStep]

/-- C9 counterexample: a step whose id is in `failed_steps` (and not in
`completed_steps`) is selected again by the scan — the claim's "skipping
every step already completed or failed" is false, since only
`completed_steps` is consulted (line 222). -/
theorem c9_failed_step_not_skipped_counterexample :
    bookC9.failed_steps = ["A"] ∧
    (bookC9.steps.get? 0).map Step.step_id = some "A" ∧
    conditionalScan bookC9.completed_steps (mkAgentState []) bookC9.steps = some 0 :=
  ⟨rfl, rfl, rfl⟩

/-- Witness for `c9_conditional_selection`: the dispatch part at the
concrete book (the scan selects index 0) and the guard instance. -/
theorem c9_conditional_selection_witness :
    execConditional 1 bookC9 (mkAgentState []) =
      execSingleStep 1 bookC9 0 (mkAgentState []) ∧
    conditionalScan [] (mkAgentState [])
      [mkStep (packedUnit "A" 1) (some (fun _ => false)) none,
       mkStep (packedUnit "B" 1) (some (fun _ => true)) none] = some 1 :=
  ⟨c9_conditional_selection.2.2.2.1 1 bookC9 (mkAgentState []) 0 rfl,
   c9_conditional_selection.2.2.2.2 (packedUnit "A" 1) (packedUnit "B" 1) (mkAgentState [])⟩

/-! ## C8: sequential composite with a failing second step -/

/-- Two consecutive loop entries: a first handled non-terminal iteration
followed by a terminal second one, under conditions that match at neither
boundary. -/
theorem runLoop_two_entries (impl : AgentImpl σ) (cfg : AgentConfig)
    (hooks : PipelineHooks σ) (f : Nat) (st : LoopSt σ)
    (a2 a3 : σ) (s2 s3 : AgentState) (r1 r2 : AgentResult)
    (hobs : observerHooks hooks)
    (hpre : ∀ a s, impl.preHook a s = .ok s)
    (hpost : ∀ a s q, impl.postHook a s q = .ok s)
    (hc1 : evalTerminalConditions cfg st.state st.status = false)
    (hex1 : impl.execute st.sigma st.state = some (a2, s2, .ok r1))
    (ht1 : r1.terminal = false)
    (hc2 : evalTerminalConditions cfg
      ((mergeData s2 r1).advance_iteration r1.message) st.status = false)
    (hex2 : impl.execute a2 ((mergeData s2 r1).advance_iteration r1.message) =
      some (a3, s3, .ok r2))
    (ht2 : r2.terminal = true) :
    runLoop impl cfg hooks (f + 1 + 1) st =
      Sum.inr (.broke
        { sigma := a3,
          state := (mergeData s3 r2).advance_iteration r2.message,
          status := r2.status,
          errors := st.errors ++ errLog r1 ++ errLog r2,
          iterCount := st.iterCount + 1 + 1,
          execCalls := st.execCalls + 1 + 1,
          condEvals := st.condEvals + 1 + 1 + 1 }) := by
  have h1 := runLoop_entry_ok impl cfg hooks (f + 1) st a2 s2 r1 hobs hpre hpost hc1 hex1
  rw [ht1] at h1
  simp only [Bool.false_eq_true, if_false, afterOkSt] at h1
  rw [hc2] at h1
  simp only [Bool.false_eq_true, if_false] at h1
  have h2 := runLoop_entry_ok impl cfg hooks f
    { sigma := a2, state := (mergeData s2 r1).advance_iteration r1.message,
      status := st.status, errors := st.errors ++ errLog r1,
      iterCount := st.iterCount + 1, execCalls := st.execCalls + 1,
      condEvals := st.condEvals + 1 + 1 } a3 s3 r2 hobs hpre hpost hc2 hex2
  rw [ht2] at h2
  simp only [if_true, afterOkSt] at h2
  rw [h1, h2]

/-- C8: a sequential composite with steps [A, B] driven by a Pipeline (with
default conditions, bound at least 2), where A's nested run completes and
B's nested run ends non-completed: the composite run's final status is
FAILED, the merged parent state carries `failed_step == "B"`, B is recorded
in the composite's `failed_steps`, and the key `A_result` holds A's final
state data in the merged parent state. -/
theorem c8_sequential_A_then_B_fails (A B : PackedAgent)
    (stA : LoopSt A.State) (stB : LoopSt B.State) (ba bb : RunBundle)
    (cname pname ptype : String) (nf f N : Nat) (hooks : PipelineHooks CompositeBook)
    (hAname : A.config.name = "A") (hBname : B.config.name = "B")
    (hAinit : A.impl.init A.st = .ok A.st) (hBinit : B.impl.init B.st = .ok B.st)
    (hArun : run A.impl A.config noHooks A.st nf = some (stA, ba))
    (hAok : ba.final_status = .completed)
    (hBrun : run B.impl B.config noHooks B.st nf = some (stB, bb))
    (hBbad : bb.final_status ≠ .completed)
    (hN : 2 ≤ N) (hobs : observerHooks hooks) :
    ∃ stF b, run (compositeImpl cname .sequential nf)
        (mkAgentConfig pname ptype (N : Int) []) hooks
        (mkCompositeBook [mkStep A none none, mkStep B none none]) (f + 2) =
        some (stF, b) ∧
      b.final_status = .failed ∧
      dictGet b.finalState.data "failed_step" = some (.vStr "B") ∧
      dictGet b.finalState.data "A_result" = some (.vDict ba.finalState.data) ∧
      stF.sigma.failed_steps = ["B"] := by
  have hinitC : (compositeImpl cname .sequential nf).init
      (mkCompositeBook [mkStep A none none, mkStep B none none]) =
      .ok { mkCompositeBook [mkStep A none none, mkStep B none none] with
              status := AgentStatus.running } := by
    simp [compositeImpl, stepsInit, mkCompositeBook, mkStep, hAinit, hBinit, Except.map]
  have hex1 : ∀ s, (compositeImpl cname .sequential nf).execute
      { mkCompositeBook [mkStep A none none, mkStep B none none] with
          status := AgentStatus.running } s =
      some ({ steps := [{ agent := { A with st := stA.sigma }, condition := none,
                          on_success := none, on_failure := none,
                          max_iterations := none, step_id := "A" },
                        mkStep B none none],
              current_step_index := 1, completed_steps := ["A"], failed_steps := [],
              step_results := [("A", bundleToValue ba)], status := AgentStatus.running },
            s.update [("A_result", .vDict ba.finalState.data)],
            .ok { status := .running, message := "Step A completed successfully",
                  data := [("current_step", .vInt 1), ("step_result", bundleToValue ba)],
                  terminal := false, error := none }) := by
    intro s
    simp [compositeImpl, execSequential, applyStepOverride, mkStep, mkCompositeBook,
      hArun, hAok, hAname, dictSet]
  have hex2 : ∀ s, (compositeImpl cname .sequential nf).execute
      { steps := [{ agent := { A with st := stA.sigma }, condition := none,
                    on_success := none, on_failure := none,
                    max_iterations := none, step_id := "A" },
                  mkStep B none none],
        current_step_index := 1, completed_steps := ["A"], failed_steps := [],
        step_results := [("A", bundleToValue ba)], status := AgentStatus.running } s =
      some ({ steps := [{ agent := { A with st := stA.sigma }, condition := none,
                          on_success := none, on_failure := none,
                          max_iterations := none, step_id := "A" },
                        { agent := { B with st := stB.sigma }, condition := none,
                          on_success := none, on_failure := none,
                          max_iterations := none, step_id := "B" }],
              current_step_index := 1, completed_steps := ["A"], failed_steps := ["B"],
              step_results := [("A", bundleToValue ba), ("B", bundleToValue bb)],
              status := AgentStatus.running },
            s,
            .ok { status := .failed, message := "Step B failed",
                  data := [("failed_step", .vStr "B"), ("step_result", bundleToValue bb)],
                  terminal := true, error := some "Step B failed" }) := by
    intro s
    simp [compositeImpl, execSequential, applyStepOverride, mkStep,
      hBrun, hBbad, hBname, dictSet]
  have hpre : ∀ (a : CompositeBook) s, (compositeImpl cname .sequential nf).preHook a s = .ok s :=
    fun a s => rfl
  have hpost : ∀ (a : CompositeBook) s q, (compositeImpl cname .sequential nf).postHook a s q = .ok s :=
    fun a s q => rfl
  have hcondP : (mkAgentConfig pname ptype (N : Int) []).terminal_conditions =
      [{ type := .max_iterations, value := .int (N : Int),
         description := "Stop after " ++ toString (N : Int) ++ " iterations" }] := by
    simp [mkAgentConfig]
  have hcIter : ∀ (s : AgentState) (a : AgentStatus), s.iteration = 0 ∨ s.iteration = 1 →
      evalTerminalConditions (mkAgentConfig pname ptype (N : Int) []) s a = false := by
    intro s a h1
    rw [evalTC_max _ _ _ hcondP]
    simp
    omega
  have hloop := runLoop_two_entries (compositeImpl cname .sequential nf)
    (mkAgentConfig pname ptype (N : Int) []) hooks f
    (initLoopSt { mkCompositeBook [mkStep A none none, mkStep B none none] with
        status := AgentStatus.running })
    _ _ _ _ _ _ hobs hpre hpost
    (hcIter _ _ (Or.inl rfl)) (hex1 (mkAgentState [])) rfl
    (hcIter _ _ (Or.inr rfl))
    (hex2 ((mergeData ((mkAgentState []).update
        [("A_result", .vDict ba.finalState.data)])
      { status := .running, message := "Step A completed successfully",
        data := [("current_step", .vInt 1), ("step_result", bundleToValue ba)],
        terminal := false, error := none }).advance_iteration
          "Step A completed successfully")) rfl
  have hfe : f + 2 = f + 1 + 1 := rfl
  have hpp1 := executeHooks_observer_sigma hooks.pre_pipeline hobs.1
  have hpp2 := executeHooks_observer_state hooks.pre_pipeline hobs.1
  have hqp1 := executeHooks_observer_sigma hooks.post_pipeline hobs.2.1
  have hqp2 := executeHooks_observer_state hooks.post_pipeline hobs.2.1
  have hinitSt : ({ initLoopSt
      ({ mkCompositeBook [mkStep A none none, mkStep B none none] with
          status := AgentStatus.running }) with
        state := mkAgentState [] } : LoopSt CompositeBook) =
      initLoopSt ({ mkCompositeBook [mkStep A none none, mkStep B none none] with
          status := AgentStatus.running }) := rfl
  simp only [run, hpp1, hpp2, hqp1, hqp2, hinitC, hinitSt, hfe, hloop]
  refine ⟨_, _, rfl, rfl, ?_, ?_, rfl⟩
  · rfl
  · rfl

/-- Witness for `c8_sequential_A_then_B_fails`: concrete trivially-completing
step "A" and terminally-failing step "B". -/
theorem c8_sequential_witness :
    ∃ stF b, run (compositeImpl "comp" .sequential 2)
        (mkAgentConfig "parent" "composite" ((2 : Nat) : Int) []) noHooks
        (mkCompositeBook [mkStep (packedUnit "A" 1) none none,
                          mkStep (packedFailing "B") none none]) (0 + 2) =
        some (stF, b) ∧
      b.final_status = .failed ∧
      dictGet b.finalState.data "failed_step" = some (.vStr "B") ∧
      dictGet b.finalState.data "A_result" = some (.vDict []) ∧
      stF.sigma.failed_steps = ["B"] :=
  c8_sequential_A_then_B_fails (packedUnit "A" 1) (packedFailing "B") _ _ _ _
    "comp" "parent" "composite" 2 0 2 noHooks
    rfl rfl rfl rfl rfl rfl rfl (by decide) (by decide) noHooks_observer

end AgenticPipeline
